import Mathlib

/-!
Shallow embedding of `src/sample-apps/hello.cpp` (the repository's single
source file) and proofs about its observable behaviour.

The program is straight-line console code.  We model one run by an
environment `Env` carrying everything the host supplies during the run
(the clock value `time(0)` returns, the host's `ctime` formatting
function, the DWORD `GetVersion()` returns, and the bytes available on
standard input), and we embed `main` as a pure function from `Env` to a
trace of observable events plus the final value of the local
`OSVERSIONINFO` record.  The event vocabulary deliberately includes
effects the program could have performed but does not (file writes,
network traffic, environment-variable access) so that frame conditions
are genuine statements about the trace.
-/

namespace Hello

/-- Host-supplied data for one run: the system clock value, the host's
`ctime` formatting of a clock value, the platform version DWORD, and the
contents of standard input. -/
structure Env where
  now : Int
  ctime : Int → String
  version : Nat
  stdin : List Char

/-- Model of `time(0)`: read the system clock. -/
def time (env : Env) : Int := env.now

/-- Model of `GetVersion()`: the platform version DWORD reported by the host. -/
def GetVersion (env : Env) : Nat := env.version

/-- The `OSVERSIONINFO` record from `windows.h` (ANSI variant):
five DWORD fields and a 128-byte `szCSDVersion` buffer. -/
structure OSVERSIONINFO where
  dwOSVersionInfoSize : Nat
  dwMajorVersion : Nat
  dwMinorVersion : Nat
  dwBuildNumber : Nat
  dwPlatformId : Nat
  szCSDVersion : List Nat
deriving DecidableEq, Repr

/-- Value of `sizeof(OSVERSIONINFO)`: five 4-byte DWORDs plus the 128-byte buffer. -/
def sizeofOSVERSIONINFO : Nat := 148

/-- Effect of `ZeroMemory(&osvi, sizeof(OSVERSIONINFO))`: every field zeroed. -/
def ZeroMemory : OSVERSIONINFO :=
  { dwOSVersionInfoSize := 0, dwMajorVersion := 0, dwMinorVersion := 0,
    dwBuildNumber := 0, dwPlatformId := 0, szCSDVersion := List.replicate 128 0 }

/-- Observable events of a run.  `writeOut`, `readClock`, `queryVersion`,
`readChar` and `exitEv` are the events the program actually produces;
`writeFile`, `netSend`, `getEnvVar` and `setEnvVar` are effects a C++
program could have performed, included so that "performs no file, network
or environment operations" is a statement about the trace rather than a
vacuity of the vocabulary. -/
inductive Event where
  | writeOut (s : String)
  | readClock (t : Int)
  | queryVersion (v : Nat)
  | readChar (c : Option Char)
  | writeFile (path : String) (contents : String)
  | netSend (host : String) (msg : String)
  | getEnvVar (name : String)
  | setEnvVar (name : String) (value : String)
  | exitEv (code : Nat)
deriving DecidableEq, Repr

/-- Model of `std::cin.get()`: the first character of standard input (or `none` at
end of file) together with the unconsumed remainder.  At end of file the
call returns immediately with the EOF sentinel. -/
def cinGet : List Char → Option Char × List Char
  | [] => (none, [])
  | c :: rest => (some c, rest)

/-- The greeting string literal from line 6 of `hello.cpp`. -/
def greeting : String := "Hello from Windows MCP Server (C++)!"

/-- Shallow embedding of `main` from `hello.cpp`: the trace of observable
events of the run, in program order, together with the final value of the
local `osvi` record.  `std::endl` and the `"\n"` literals become the
newlines seen in the written strings; `ctime`'s result (which on the host
carries its own trailing newline) is printed with no added newline, as in
`std::cout << "Built at: " << timeStr;`. -/
def main (env : Env) : List Event × OSVERSIONINFO :=
  let now := time env
  let timeStr := env.ctime now
  let osvi0 := ZeroMemory
  let osvi := { osvi0 with dwOSVersionInfoSize := sizeofOSVERSIONINFO }
  let v := GetVersion env
  let ack := cinGet env.stdin
  ([ .writeOut (greeting ++ "\n"),
     .readClock now,
     .writeOut ("Built at: " ++ timeStr),
     .queryVersion v,
     .writeOut ("Windows Build: " ++ toString v ++ "\n"),
     .writeOut "\nPress Enter to exit...",
     .readChar ack.1,
     .exitEv 0 ], osvi)

/-- The event trace of a run. -/
def mainEvents (env : Env) : List Event := (main env).1

/-- The event trace of the variant program with the three `OSVERSIONINFO`
statements (declaration, `ZeroMemory`, size assignment) deleted: the
comparison program for the dead-store claim. -/
def mainNoOsvi (env : Env) : List Event :=
  let now := time env
  let timeStr := env.ctime now
  let v := GetVersion env
  let ack := cinGet env.stdin
  [ .writeOut (greeting ++ "\n"),
    .readClock now,
    .writeOut ("Built at: " ++ timeStr),
    .queryVersion v,
    .writeOut ("Windows Build: " ++ toString v ++ "\n"),
    .writeOut "\nPress Enter to exit...",
    .readChar ack.1,
    .exitEv 0 ]

/-- Everything a trace writes to standard output, concatenated. -/
def stdoutOf : List Event → String
  | [] => ""
  | .writeOut s :: rest => s ++ stdoutOf rest
  | _ :: rest => stdoutOf rest

/-- Standard output of a run. -/
def mainStdout (env : Env) : String := stdoutOf (mainEvents env)

/-- The exit codes a trace reports, in order. -/
def exitCodesOf : List Event → List Nat
  | [] => []
  | .exitEv c :: rest => c :: exitCodesOf rest
  | _ :: rest => exitCodesOf rest

/-- The exit code of a run: the first exit event of its trace. -/
def mainExit (env : Env) : Option Nat := (exitCodesOf (mainEvents env)).head?

/-- The clock values a trace reads, in order. -/
def clockReadsOf : List Event → List Int
  | [] => []
  | .readClock t :: rest => t :: clockReadsOf rest
  | _ :: rest => clockReadsOf rest

/-- The version values a trace queries from the host, in order. -/
def versionQueriesOf : List Event → List Nat
  | [] => []
  | .queryVersion v :: rest => v :: versionQueriesOf rest
  | _ :: rest => versionQueriesOf rest

/-- How many characters of standard input a trace consumes (a `readChar`
that hit end of file consumed nothing). -/
def consumedOf : List Event → Nat
  | [] => 0
  | .readChar (some _) :: rest => 1 + consumedOf rest
  | _ :: rest => consumedOf rest

/-- Effects beyond the console and the two host queries: file writes,
network traffic, environment-variable reads and writes. -/
def isExternalEffect : Event → Bool
  | .writeFile _ _ => true
  | .netSend _ _ => true
  | .getEnvVar _ => true
  | .setEnvVar _ _ => true
  | _ => false

/-- Console traffic or a read-only host query. -/
def isConsoleOrHostQuery : Event → Bool
  | .writeOut _ => true
  | .readClock _ => true
  | .queryVersion _ => true
  | .readChar _ => true
  | .exitEv _ => true
  | _ => false

/-- Returns `true` when the trace has no stdout write. -/
def noWrites : List Event → Bool
  | [] => true
  | .writeOut _ :: _ => false
  | _ :: rest => noWrites rest

/-- Returns `true` when every stdout write of the trace happens before the
first read from standard input. -/
def writesBeforeReads : List Event → Bool
  | [] => true
  | .readChar _ :: rest => noWrites rest
  | _ :: rest => writesBeforeReads rest

/-- The abstract steps of the spec's state machine. -/
inductive Step where
  | printGreeting
  | printTime
  | printVersion
  | waitForInput
  | exitZero
deriving DecidableEq, Repr

/-- Abstraction from concrete events to the spec's steps.  An output is
classified by its first character ('H' the greeting, 'B' the "Built at:"
line, 'W' the "Windows Build:" line; the prompt starts with a newline and
belongs to the wait step, whose observable footprint is the read). -/
def eventStep : Event → Option Step
  | .writeOut s =>
    match s.data with
    | 'H' :: _ => some .printGreeting
    | 'B' :: _ => some .printTime
    | 'W' :: _ => some .printVersion
    | _ => none
  | .readChar _ => some .waitForInput
  | .exitEv c => if c = 0 then some .exitZero else none
  | _ => none

/-- The spec-level step sequence of a trace. -/
def stepsOf (l : List Event) : List Step := l.filterMap eventStep

/-- The first line of a string: everything before the first newline. -/
def firstLine (s : String) : String :=
  String.mk (s.data.takeWhile (fun c => c != '\n'))

/-- Split a character list at newlines (the newline terminating a line is
not part of it; text after the last newline is a final line, and the
empty text splits into one empty line). -/
def splitLines : List Char → List (List Char)
  | [] => [[]]
  | c :: rest =>
    if c = '\n' then [] :: splitLines rest
    else
      match splitLines rest with
      | [] => [[c]]
      | l :: ls => (c :: l) :: ls

/-- The lines of a string. -/
def linesOf (s : String) : List String := (splitLines s.data).map String.mk


/-- A concrete demonstration environment: epoch clock, a fixed `ctime`
rendering, version DWORD 2600, and a single newline on standard input. -/
def envDemo : Env :=
  { now := 0, ctime := fun _ => "Thu Jan  1 00:00:00 1970\n",
    version := 2600, stdin := ['\n'] }

lemma data_append (s t : String) : (s ++ t).data = s.data ++ t.data := rfl

lemma splitLines_newline (l : List Char) :
    splitLines ('\n' :: l) = [] :: splitLines l := by
  simp [splitLines]

lemma splitLines_no_newline (l : List Char) (h : ∀ c ∈ l, c ≠ '\n') :
    splitLines l = [l] := by
  induction l with
  | nil => rfl
  | cons c cs ih =>
    have hc : c ≠ '\n' := h c (by simp)
    simp only [splitLines, if_neg hc]
    rw [ih (fun c' hc' => h c' (by simp [hc']))]

lemma splitLines_append (l1 l2 : List Char) (h : ∀ c ∈ l1, c ≠ '\n') :
    splitLines (l1 ++ '\n' :: l2) = l1 :: splitLines l2 := by
  induction l1 with
  | nil => simp [splitLines]
  | cons c cs ih =>
    have hc : c ≠ '\n' := h c (by simp)
    simp only [List.cons_append, splitLines, if_neg hc, List.append_eq]
    rw [ih (fun c' hc' => h c' (by simp [hc']))]

lemma digitChar_ne_newline (d : Nat) : Nat.digitChar d ≠ '\n' := by
  rcases Nat.lt_or_ge d 16 with h | h
  · exact (by decide : ∀ e, e < 16 → Nat.digitChar e ≠ '\n') d h
  · have hne : ∀ k : Nat, k < 16 → d ≠ k := fun k hk => by omega
    have h0 : Nat.digitChar d = '*' := by
      unfold Nat.digitChar
      rw [if_neg (hne 0 (by decide)), if_neg (hne 1 (by decide)), if_neg (hne 2 (by decide)),
          if_neg (hne 3 (by decide)), if_neg (hne 4 (by decide)), if_neg (hne 5 (by decide)),
          if_neg (hne 6 (by decide)), if_neg (hne 7 (by decide)), if_neg (hne 8 (by decide)),
          if_neg (hne 9 (by decide)), if_neg (hne 10 (by decide)), if_neg (hne 11 (by decide)),
          if_neg (hne 12 (by decide)), if_neg (hne 13 (by decide)), if_neg (hne 14 (by decide)),
          if_neg (hne 15 (by decide))]
    rw [h0]; decide

lemma toDigitsCore_ne_newline (f : Nat) : ∀ (n : Nat) (ds : List Char),
    (∀ c ∈ ds, c ≠ '\n') → ∀ c ∈ Nat.toDigitsCore 10 f n ds, c ≠ '\n' := by
  induction f with
  | zero =>
    intro n ds h
    simpa [Nat.toDigitsCore] using h
  | succ f ih =>
    intro n ds h c hc
    simp only [Nat.toDigitsCore] at hc
    split at hc
    · rcases List.mem_cons.mp hc with h1 | h1
      · exact h1 ▸ digitChar_ne_newline _
      · exact h c h1
    · refine ih _ _ ?_ c hc
      intro c' hc'
      rcases List.mem_cons.mp hc' with h1 | h1
      · exact h1 ▸ digitChar_ne_newline _
      · exact h c' h1

/-- The decimal rendering of a `Nat` never contains a newline. -/
lemma toString_nat_ne_newline (n : Nat) : ∀ c ∈ (toString n).data, c ≠ '\n' := by
  show ∀ c ∈ (Nat.toDigits 10 n).asString.data, c ≠ '\n'
  simpa [List.asString, Nat.toDigits] using toDigitsCore_ne_newline (n + 1) n [] (by simp)

lemma toDigitsCore_length_ge (f : Nat) : ∀ (n : Nat) (ds : List Char),
    ds.length ≤ (Nat.toDigitsCore 10 f n ds).length := by
  induction f with
  | zero => intro n ds; simp [Nat.toDigitsCore]
  | succ f ih =>
    intro n ds
    simp only [Nat.toDigitsCore]
    split
    · simp
    · exact le_trans (Nat.le_succ _) (ih (n / 10) (Nat.digitChar (n % 10) :: ds))

/-- The decimal rendering of a `Nat` is never the empty string. -/
lemma toString_nat_ne_empty (n : Nat) : toString n ≠ "" := by
  show (Nat.toDigits 10 n).asString ≠ ""
  intro hempty
  have hdata : (Nat.toDigits 10 n) = [] := by
    have := congrArg String.data hempty
    simpa [List.asString] using this
  have h1 : 1 ≤ (Nat.toDigitsCore 10 (n + 1) n []).length := by
    simp only [Nat.toDigitsCore]
    split
    · simp
    · exact le_trans (by simp) (toDigitsCore_length_ge n (n / 10) [Nat.digitChar (n % 10)])
  rw [show Nat.toDigitsCore 10 (n + 1) n [] = Nat.toDigits 10 n from rfl, hdata] at h1
  simp at h1

/-- C1: on a run whose standard input is the single character `'\n'` (and
whose host `ctime` returns, as `ctime` always does, a single line ended by
one newline), standard output is exactly the four-line template with the
live time and version substituted — the greeting, the "Built at:" line,
the "Windows Build:" line, and, after a blank line, the prompt — the run
consumes exactly that one character of input, leaving nothing unread, and
exits with code 0.  (The embedding is a total function, so the trace is
produced for every input: the run cannot hang.) -/
theorem c1_single_newline_run (env : Env) (ts : String)
    (hstdin : env.stdin = ['\n'])
    (hts : env.ctime env.now = ts ++ "\n")
    (htsNoNL : ∀ c ∈ ts.data, c ≠ '\n') :
    mainStdout env =
      greeting ++ "\n" ++ "Built at: " ++ ts ++ "\n" ++
        "Windows Build: " ++ toString env.version ++ "\n" ++ "\n" ++
        "Press Enter to exit..." ∧
    linesOf (mainStdout env) =
      [greeting, "Built at: " ++ ts, "Windows Build: " ++ toString env.version,
       "", "Press Enter to exit..."] ∧
    consumedOf (mainEvents env) = 1 ∧
    env.stdin.drop 1 = [] ∧
    mainExit env = some 0 := by
  refine ⟨?_, ?_, ?_, by simp [hstdin], rfl⟩
  · apply String.ext
    simp [mainStdout, mainEvents, main, stdoutOf, time, GetVersion, hts, data_append,
      List.append_assoc]
  · have hg : ∀ c ∈ greeting.data, c ≠ '\n' := by decide
    have hb : ∀ c ∈ ("Built at: ".data ++ ts.data), c ≠ '\n' := by
      intro c hc
      rcases List.mem_append.mp hc with h1 | h1
      · exact (by decide : ∀ c ∈ "Built at: ".data, c ≠ '\n') c h1
      · exact htsNoNL c h1
    have hw : ∀ c ∈ ("Windows Build: ".data ++ (toString env.version).data), c ≠ '\n' := by
      intro c hc
      rcases List.mem_append.mp hc with h1 | h1
      · exact (by decide : ∀ c ∈ "Windows Build: ".data, c ≠ '\n') c h1
      · exact toString_nat_ne_newline env.version c h1
    have hp : ∀ c ∈ "Press Enter to exit...".data, c ≠ '\n' := by decide
    have h1 : (mainStdout env).data =
        greeting.data ++ '\n' :: (("Built at: ".data ++ ts.data) ++ '\n' ::
          (("Windows Build: ".data ++ (toString env.version).data) ++ '\n' ::
            ('\n' :: "Press Enter to exit...".data))) := by
      simp [mainStdout, mainEvents, main, stdoutOf, time, GetVersion, hts, data_append,
        List.append_assoc]
    have hsplit : splitLines (mainStdout env).data =
        [greeting.data, "Built at: ".data ++ ts.data,
         "Windows Build: ".data ++ (toString env.version).data, [],
         "Press Enter to exit...".data] := by
      rw [h1, splitLines_append _ _ hg, splitLines_append _ _ hb, splitLines_append _ _ hw,
        splitLines_newline, splitLines_no_newline _ hp]
    show (splitLines (mainStdout env).data).map String.mk = _
    rw [hsplit]
    rfl
  · simp [mainEvents, main, consumedOf, hstdin, cinGet]

/-- Witness for C1 at the concrete environment `envDemo` (stdin is one
newline, a fixed `ctime` rendering, version 2600). -/
theorem c1_single_newline_run_witness :
    mainStdout envDemo =
      greeting ++ "\n" ++ "Built at: " ++ "Thu Jan  1 00:00:00 1970" ++ "\n" ++
        "Windows Build: " ++ toString envDemo.version ++ "\n" ++ "\n" ++
        "Press Enter to exit..." ∧
    linesOf (mainStdout envDemo) =
      [greeting, "Built at: " ++ "Thu Jan  1 00:00:00 1970",
       "Windows Build: " ++ toString envDemo.version, "", "Press Enter to exit..."] ∧
    consumedOf (mainEvents envDemo) = 1 ∧
    envDemo.stdin.drop 1 = [] ∧
    mainExit envDemo = some 0 :=
  c1_single_newline_run envDemo "Thu Jan  1 00:00:00 1970" rfl rfl (by decide)

/-- C2: for every environment — any clock value, any version, any stdin —
the first line of standard output is exactly the literal greeting, so in
particular it agrees between any two environments. -/
theorem c2_first_line_is_greeting (env env' : Env) :
    firstLine (mainStdout env) = "Hello from Windows MCP Server (C++)!" ∧
    firstLine (mainStdout env) = firstLine (mainStdout env') :=
  ⟨rfl, rfl⟩

/-- C3: every run terminates (its event trace is a fixed finite sequence)
and the only exit code ever reported is 0, for every input, clock value
and version value. -/
theorem c3_always_exit_zero (env : Env) :
    exitCodesOf (mainEvents env) = [0] ∧
    mainExit env = some 0 ∧
    (mainEvents env).length = 8 :=
  ⟨rfl, rfl, rfl⟩

/-- C4: every run reads the clock exactly once, obtaining the startup
value `env.now`, and standard output carries, right after the greeting,
the line `"Built at: "` followed by the host `ctime` formatting of exactly
that value. -/
theorem c4_built_at_formats_startup_clock (env : Env) :
    clockReadsOf (mainEvents env) = [env.now] ∧
    ∃ rest, mainStdout env =
      greeting ++ "\n" ++ ("Built at: " ++ env.ctime env.now) ++ rest := by
  refine ⟨rfl, ?_⟩
  refine ⟨"Windows Build: " ++ toString env.version ++ "\n" ++ "\nPress Enter to exit...", ?_⟩
  apply String.ext
  simp [mainStdout, mainEvents, main, stdoutOf, time, GetVersion, data_append,
    List.append_assoc]

/-- C5: on every run the trace contains a "Windows Build:" output line
whose value after the colon is non-empty.  (`GetVersion()` is total — it
returns a DWORD on every host — so the value is always its decimal
rendering, which is never empty.) -/
theorem c5_version_value_nonempty (env : Env) :
    ∃ v : String, v ≠ "" ∧
      Event.writeOut ("Windows Build: " ++ v ++ "\n") ∈ mainEvents env := by
  refine ⟨toString env.version, toString_nat_ne_empty env.version, ?_⟩
  simp [mainEvents, main, GetVersion]

/-- C6: execution is linear: for every environment the spec-level step
sequence of the trace is exactly PrintGreeting, PrintTime, PrintVersion,
WaitForInput, Exit(0) — nothing skipped, repeated or reordered — and every
stdout write happens before the read from standard input begins. -/
theorem c6_linear_step_sequence (env : Env) :
    stepsOf (mainEvents env) =
      [Step.printGreeting, Step.printTime, Step.printVersion,
       Step.waitForInput, Step.exitZero] ∧
    writesBeforeReads (mainEvents env) = true :=
  ⟨rfl, rfl⟩

/-- C7: every event of every run is console traffic or a read-only host
query; the trace contains no file write, no network operation, and no
environment-variable read or write. -/
theorem c7_console_only_side_effects (env : Env) :
    (mainEvents env).all (fun e => isConsoleOrHostQuery e) = true ∧
    (mainEvents env).all (fun e => !isExternalEffect e) = true :=
  ⟨rfl, rfl⟩

/-- C8: on every run the clock is read exactly once, yielding the run's
clock value, and the version API is queried exactly once, yielding the
run's version value. -/
theorem c8_each_host_value_read_once (env : Env) :
    clockReadsOf (mainEvents env) = [time env] ∧
    versionQueriesOf (mainEvents env) = [GetVersion env] :=
  ⟨rfl, rfl⟩

/-- C9: the `OSVERSIONINFO` initialization is dead code: the trace of the
program equals, event for event, the trace of the variant with the three
`osvi` statements removed; the local record still holds exactly its
initialized value when the run ends (it is never written again, and no
event carries it, so it is never passed to an API); and the printed
version line comes solely from `GetVersion()`. -/
theorem c9_osvi_is_dead_code (env : Env) :
    mainEvents env = mainNoOsvi env ∧
    (main env).2 = { ZeroMemory with dwOSVersionInfoSize := sizeofOSVERSIONINFO } ∧
    Event.writeOut ("Windows Build: " ++ toString (GetVersion env) ++ "\n") ∈
      mainEvents env := by
  refine ⟨rfl, rfl, ?_⟩
  simp [mainEvents, main, GetVersion]

/-- C10: the final acknowledgment is a single-character read, not a line
read: on any standard input the run consumes `min 1 |stdin|` characters —
one character whatever it is, newline or not — the rest of the input is
left unconsumed, and on empty input (immediate end of file) the read
returns at once, nothing is consumed, and the run still exits 0. -/
theorem c10_single_char_acknowledgment (env : Env) :
    consumedOf (mainEvents env) = min 1 env.stdin.length ∧
    (cinGet env.stdin).2 = env.stdin.drop 1 ∧
    exitCodesOf (mainEvents env) = [0] := by
  refine ⟨?_, ?_, rfl⟩
  · rcases henv : env.stdin with _ | ⟨c, rest⟩ <;>
      simp [mainEvents, main, consumedOf, henv, cinGet]
  · rcases henv : env.stdin with _ | ⟨c, rest⟩ <;> simp [cinGet]

end Hello
